import Mathlib

/-
Verification of the statement-interception pipeline of the sqlm repository
(vsjadeja/sqlm).  The definitions below are a shallow embedding of sqlm.go
(the current version, the one whose QHooks holds the two mysql.Config
endpoints) and monitor.go: statement text is modelled as List Char, the Go
context as an explicit record of the values sqlm.go reads and writes, the
prometheus counter vectors as label-indexed natural-number maps, and a hook
that can only end in a runtime panic (a failed type assertion) as an Except
value carrying the monitor state reached at the moment of the panic.
-/

set_option maxHeartbeats 1000000

namespace Sqlm

/-- Convert a string literal to the character list that models it. -/
def toL (s : String) : List Char := s.toList

/-- Statement categories produced by the switch in QHooks.Before of sqlm.go. -/
inductive QClass
  | select
  | update
  | delete
  | create
  | other
deriving DecidableEq, Repr

/-- Case-insensitive prefix test, as sqlm.go writes it:
strings.HasPrefix(strings.ToLower(query), p) for a lowercase literal p. -/
def lowerStarts (p : List Char) (q : List Char) : Bool :=
  p.isPrefixOf (q.map Char.toLower)

/-- The switch of QHooks.Before in sqlm.go: classify a statement by its
case-insensitive leading keyword, checked in the fixed order select, update,
delete, create, with other as the default. -/
def classify (q : List Char) : QClass :=
  if lowerStarts (toL "select") q then .select
  else if lowerStarts (toL "update") q then .update
  else if lowerStarts (toL "delete") q then .delete
  else if lowerStarts (toL "create") q then .create
  else .other

/-- Embedding of queryCleanup.ReplaceAllString(query, "") from sqlm.go, where
queryCleanup is the regexp (,\?)+ .  Replacing every maximal run of ",?" pairs
by the empty string deletes exactly the disjoint ",?" pairs found in one
left-to-right scan, which is what this recursion performs. -/
def collapseQ : List Char → List Char
  | [] => []
  | [c] => [c]
  | c1 :: c2 :: rest =>
    if c1 = ',' ∧ c2 = '?' then collapseQ rest
    else c1 :: collapseQ (c2 :: rest)

/-- Whether the text still contains an occurrence of the two-character pattern ",?". -/
def hasCQ : List Char → Bool
  | [] => false
  | [_] => false
  | c1 :: c2 :: rest =>
    if c1 = ',' ∧ c2 = '?' then true else hasCQ (c2 :: rest)

/-- The lowercase literal part of the regexp insertQueryCleanup of sqlm.go,
namely the pattern (?i)values \(.*$ . -/
def vpat : List Char := toL "values ("

/-- The fixed replacement block sqlm.go substitutes for the VALUES clause. -/
def vblock : List Char := toL "VALUES (? ?)"

/-- Whether the regexp (?i)values \(.*$ matches at the head of the text: the
text must start, case-insensitively, with "values (", and the remainder must
contain no newline (in a Go regexp the dot does not match a newline and the
dollar anchors only at the end of the text). -/
def ciMatchAt (l : List Char) : Bool :=
  vpat.isPrefixOf (l.map Char.toLower) && !(decide ('\n' ∈ l.drop 8))

/-- Embedding of insertQueryCleanup.ReplaceAllString(query, "VALUES (? ?)"):
the leftmost match of (?i)values \(.*$ always extends to the end of the text,
so everything from the match position on is replaced by the fixed block. -/
def insertRepl : List Char → List Char
  | [] => []
  | c :: rest => if ciMatchAt (c :: rest) then vblock else c :: insertRepl rest

/-- Scanner for SanitizeQuery of sqlm.go, the regexp (\d(,?))+ replaced by the
empty string: every digit is deleted, and a comma is deleted exactly when it
immediately follows a digit of the original text.  The Boolean argument records
whether the previous character of the original text was a digit. -/
def sanAux : Bool → List Char → List Char
  | _, [] => []
  | prev, c :: rest =>
    if c.isDigit then sanAux true rest
    else if prev ∧ c = ',' then sanAux false rest
    else c :: sanAux false rest

/-- SanitizeQuery of sqlm.go. -/
def SanitizeQuery (query : List Char) : List Char := sanAux false query

/-- The cleanQuery value computed by QHooks.Before of sqlm.go: the queryCleanup
rewrite of the query, overwritten in the default branch of the switch by the
insertQueryCleanup rewrite of the raw query. -/
def beforeCleanQuery (query : List Char) : List Char :=
  match classify query with
  | .other => insertRepl query
  | _ => collapseQ query

/-- The span name chosen by the switch of QHooks.Before. -/
def beforeSpanName (query : List Char) : String :=
  match classify query with
  | .select => "SQL: SELECT"
  | .update => "SQL: UPDATE"
  | .delete => "SQL: DELETE"
  | .create => "SQL: CREATE"
  | .other => "SQL: OTHER"

example : collapseQ (toL "SELECT * FROM t WHERE id IN (?,?,?)") =
    toL "SELECT * FROM t WHERE id IN (?)" := by decide

example : insertRepl (toL "INSERT INTO t VALUES (1,2),(3,4)") =
    toL "INSERT INTO t VALUES (? ?)" := by decide

example : SanitizeQuery (toL "WHERE id IN (1,2,34)") = toL "WHERE id IN ()" := by decide

example : classify (toL "Insert INTO t") = QClass.other := by decide

example : classify (toL "sElEcT 1") = QClass.select := by decide

example : collapseQ (toL ",,??") = toL ",?" := by decide

/-- The fields of mysql.Config that sqlm.go reads. -/
structure MySQLConfig where
  Addr : String
  DBName : String
  User : String

/-- QHooks of sqlm.go: the primary (read-write) and the secondary (read-only)
endpoint configurations. -/
structure QHooks where
  rw : MySQLConfig
  ro : MySQLConfig

/-- getDBHostName of sqlm.go: the read-write address, overridden by the
read-only address for a select query when the latter is non-empty. -/
def getDBHostName (h : QHooks) (isSelectQuery : Bool) : String :=
  if isSelectQuery && !(h.ro.Addr == "") then h.ro.Addr else h.rw.Addr

/-- getDatabaseName of sqlm.go. -/
def getDatabaseName (h : QHooks) (isSelectQuery : Bool) : String :=
  if isSelectQuery && !(h.ro.DBName == "") then h.ro.DBName else h.rw.DBName

/-- getDBUserName of sqlm.go. -/
def getDBUserName (h : QHooks) (isSelectQuery : Bool) : String :=
  if isSelectQuery && !(h.ro.User == "") then h.ro.User else h.rw.User

/-- The per-field routing policy as the spec words it: the secondary field when
it is non-empty, the primary field as the fallback otherwise. -/
def specFieldResolve (primary secondary : String) : String :=
  if secondary ≠ "" then secondary else primary

/-- The constant SqlType of sqlm.go, the context key read by After. -/
def SqlType : String := "sqlType"

/-- The constant SqlMaster of sqlm.go, the default type label. -/
def SqlMaster : String := "master"

/-- The constant SqlSlave of sqlm.go. -/
def SqlSlave : String := "slave"

/-- Attribute values attached to a span. -/
inductive AttrVal
  | ofStr (s : String)
  | ofText (t : List Char)
  | ofBool (b : Bool)
  | ofDur (d : Nat)
deriving DecidableEq

/-- A trace span: its name, its attributes in order of attachment, and whether
End has been called on it. -/
structure Span where
  name : String
  attrs : List (String × AttrVal)
  ended : Bool
deriving DecidableEq

/-- span.SetAttributes appends attributes. -/
def setAttrs (s : Span) (l : List (String × AttrVal)) : Span :=
  { s with attrs := s.attrs ++ l }

/-- span.End marks the span closed. -/
def endSpan (s : Span) : Span := { s with ended := true }

/-- A Go error as seen by OnError: the driver.ErrSkip sentinel, or an ordinary
error carrying a message.  The absence of an error is Option.none. -/
inductive GoErr
  | errSkip
  | mk (msg : String)
deriving DecidableEq

/-- err.Error() for the modelled errors. -/
def GoErr.text : GoErr → String
  | .errSkip => "driver: skip fast-path; continue as if unimplemented"
  | .mk m => m

/-- The context values sqlm.go reads or writes: the string-keyed values
(ctx.Value on a string key), the begin timestamp stored under Key("begin"),
and the span stored under Key("querySpan"). -/
structure Ctx where
  strVals : String → Option String
  beginVal : Option Nat
  spanVal : Option Span

/-- A metric label: the (sanitized) query text together with the sql type. -/
abbrev Lbl := List Char × String

/-- QMonitor of sqlm.go: the counter vectors are label-indexed counts and the
latency histogram is modelled as the list of observed durations per label. -/
structure QMonitor where
  total : Lbl → Nat
  success : Lbl → Nat
  errors : Lbl → Nat
  latency : Lbl → List Nat

/-- Increment a counter vector at one label. -/
def bumpN (f : Lbl → Nat) (L : Lbl) : Lbl → Nat :=
  fun L' => if L' = L then f L' + 1 else f L'

/-- Record one histogram observation at one label. -/
def pushObs (f : Lbl → List Nat) (L : Lbl) (v : Nat) : Lbl → List Nat :=
  fun L' => if L' = L then v :: f L' else f L'

/-- StoreTotal of sqlm.go. -/
def StoreTotal (mon : QMonitor) (name : List Char) (sqlType : String) : QMonitor :=
  { mon with total := bumpN mon.total (SanitizeQuery name, sqlType) }

/-- StoreSuccesful of sqlm.go. -/
def StoreSuccesful (mon : QMonitor) (name : List Char) (sqlType : String) : QMonitor :=
  { mon with success := bumpN mon.success (SanitizeQuery name, sqlType) }

/-- StoreErroneous of sqlm.go. -/
def StoreErroneous (mon : QMonitor) (name : List Char) (sqlType : String) : QMonitor :=
  { mon with errors := bumpN mon.errors (SanitizeQuery name, sqlType) }

/-- StoreLatency of sqlm.go. -/
def StoreLatency (mon : QMonitor) (name : List Char) (d : Nat) (sqlType : String) : QMonitor :=
  { mon with latency := pushObs mon.latency (SanitizeQuery name, sqlType) d }

/-- The sqlType resolved by QHooks.After: the context value stored under the
key "sqlType", with "master" as the default. -/
def afterSqlType (ctx : Ctx) : String := (ctx.strVals SqlType).getD SqlMaster

/-- The sqlType resolved by QHooks.OnError: the code looks the context value up
under the current value of its sqlType variable, which is the string "master",
not under the key "sqlType". -/
def onErrSqlType (ctx : Ctx) : String := (ctx.strVals SqlMaster).getD SqlMaster

/-- The query rewrite QHooks.After performs before storing metrics: the
queryCleanup rewrite, then the insertQueryCleanup rewrite when the collapsed
text starts, case-insensitively, with "insert". -/
def afterQueryRewrite (query : List Char) : List Char :=
  let q := collapseQ query
  if lowerStarts (toL "insert") q then insertRepl q else q

/-- QHooks.Before of sqlm.go: classify, build the clean query, start a span
carrying the service, endpoint and query attributes, and return the context
with the begin timestamp and the span stored in it; the error result of the
hook is always nil, so it is not modelled. -/
def goBefore (h : QHooks) (ctx : Ctx) (query : List Char) (now : Nat) : Ctx :=
  let isSelectQuery : Bool := decide (classify query = QClass.select)
  let span : Span :=
    { name := beforeSpanName query
      attrs := [("service.name", AttrVal.ofStr "mysql"),
                ("db.host", AttrVal.ofStr (getDBHostName h isSelectQuery)),
                ("db.database", AttrVal.ofStr (getDatabaseName h isSelectQuery)),
                ("db.user", AttrVal.ofStr (getDBUserName h isSelectQuery)),
                ("query", AttrVal.ofText (beforeCleanQuery query))]
      ended := false }
  { strVals := ctx.strVals, beginVal := some now, spanVal := some span }

/-- QHooks.After of sqlm.go.  The begin timestamp is read through a type
assertion, which panics when the context has no begin value: that panic is the
error branch, carrying the monitor state reached at that moment (no counter was
stored yet).  The span, in contrast, is guarded by a nil check: when it is
missing the span work is silently skipped.  On the normal path the hook closes
the span and stores total, success and latency under the resolved label. -/
def goAfter (ctx : Ctx) (query : List Char) (now : Nat) (mon : QMonitor) :
    Except QMonitor (Ctx × QMonitor × Option Span) :=
  let q := afterQueryRewrite query
  let sqlType := afterSqlType ctx
  match ctx.beginVal with
  | none => .error mon
  | some b =>
    let sp := ctx.spanVal.map fun s =>
      endSpan (setAttrs s [("query.time", AttrVal.ofDur (now - b))])
    let mon1 := StoreLatency (StoreSuccesful (StoreTotal mon q sqlType) q sqlType)
      q (now - b) sqlType
    .ok (ctx, mon1, sp)

/-- QHooks.OnError of sqlm.go.  The skip sentinel and the absent error return
nil at once, before any accounting.  On a genuine error the hook stores total
and erroneous first, then reads the begin timestamp through a type assertion —
so a missing begin value panics only after those two counters were bumped (the
error branch carries that intermediate monitor state) — then stores latency,
annotates and closes the span when one is present, and returns the original
error value. -/
def goOnError (ctx : Ctx) (err : Option GoErr) (query : List Char) (now : Nat)
    (mon : QMonitor) :
    Except QMonitor (Option GoErr × QMonitor × Option Span) :=
  let q := collapseQ query
  if err = some GoErr.errSkip ∨ err = none then .ok (none, mon, ctx.spanVal)
  else
    let sqlType := onErrSqlType ctx
    let mon1 := StoreErroneous (StoreTotal mon q sqlType) q sqlType
    match ctx.beginVal with
    | none => .error mon1
    | some b =>
      let mon2 := StoreLatency mon1 q (now - b) sqlType
      let sp := ctx.spanVal.map fun s =>
        endSpan (setAttrs s [("error", AttrVal.ofBool true),
                             ("errorText", AttrVal.ofStr ((err.map GoErr.text).getD ""))])
      .ok (err, mon2, sp)

/-- Discriminate the Except results of the terminal hooks. -/
def isOkE {ε α : Type} : Except ε α → Bool
  | .ok _ => true
  | .error _ => false

/-- Renders a sequence of SQL value tuples in source form: "(t1),(t2),...". -/
def renderTuples : List (List Char) → List Char
  | [] => []
  | [t] => '(' :: (t ++ [')'])
  | t :: rest => '(' :: (t ++ (')' :: ',' :: renderTuples rest))

/-- The string-keyed context map with no stored values. -/
def emptyStrVals : String → Option String := fun _ => none

/-- A monitor with all counters at zero and no observations. -/
def emptyMon : QMonitor := ⟨fun _ => 0, fun _ => 0, fun _ => 0, fun _ => []⟩

example : renderTuples [toL "1,2", toL "3,4"] = toL "(1,2),(3,4)" := by decide

/-- C6: for a read-eligible (select) statement each of the three attribution
fields is resolved independently, taking the read-only endpoint field when it
is non-empty and falling back to the read-write field otherwise; in particular
primary (h1,d1,u1) with secondary ("",d2,"") and d2 non-empty resolves to
(h1,d2,u1). -/
theorem routing_per_field (h1 d1 u1 d2 : String) (hd2 : d2 ≠ "") :
    (∀ hk : QHooks,
        getDBHostName hk true = specFieldResolve hk.rw.Addr hk.ro.Addr ∧
        getDatabaseName hk true = specFieldResolve hk.rw.DBName hk.ro.DBName ∧
        getDBUserName hk true = specFieldResolve hk.rw.User hk.ro.User)
  ∧ getDBHostName ⟨⟨h1, d1, u1⟩, ⟨"", d2, ""⟩⟩ true = h1
  ∧ getDatabaseName ⟨⟨h1, d1, u1⟩, ⟨"", d2, ""⟩⟩ true = d2
  ∧ getDBUserName ⟨⟨h1, d1, u1⟩, ⟨"", d2, ""⟩⟩ true = u1 := by
  refine ⟨fun hk => ⟨?_, ?_, ?_⟩, ?_, ?_, ?_⟩
  · by_cases h : hk.ro.Addr = "" <;>
      simp [getDBHostName, specFieldResolve, h]
  · by_cases h : hk.ro.DBName = "" <;>
      simp [getDatabaseName, specFieldResolve, h]
  · by_cases h : hk.ro.User = "" <;>
      simp [getDBUserName, specFieldResolve, h]
  · simp [getDBHostName]
  · simp [getDatabaseName, hd2]
  · simp [getDBUserName, hd2]

/-- C6 witness: the per-field resolution at concrete endpoint values. -/
theorem routing_per_field_witness :
    getDBHostName ⟨⟨"rw-host", "rw-db", "rw-user"⟩, ⟨"", "ro-db", ""⟩⟩ true = "rw-host"
  ∧ getDatabaseName ⟨⟨"rw-host", "rw-db", "rw-user"⟩, ⟨"", "ro-db", ""⟩⟩ true = "ro-db"
  ∧ getDBUserName ⟨⟨"rw-host", "rw-db", "rw-user"⟩, ⟨"", "ro-db", ""⟩⟩ true = "rw-user" := by
  have h := routing_per_field "rw-host" "rw-db" "rw-user" "ro-db" (by decide)
  exact ⟨h.2.1, h.2.2.1, h.2.2.2⟩

/-- C7: OnError invoked with the skip sentinel or with no error returns nil at
once: the monitor is unchanged (no total, error or latency accounting) and the
span of the context is neither annotated nor closed. -/
theorem onError_skip_noop (ctx : Ctx) (q : List Char) (now : Nat) (mon : QMonitor)
    (err : Option GoErr) (h : err = some GoErr.errSkip ∨ err = none) :
    goOnError ctx err q now mon = .ok (none, mon, ctx.spanVal) := by
  unfold goOnError
  rw [if_pos h]

/-- C7 witness: the skip sentinel at concrete inputs. -/
theorem onError_skip_noop_witness :
    goOnError ⟨emptyStrVals, some 0, none⟩ (some GoErr.errSkip) (toL "select 1") 7 emptyMon
      = .ok (none, emptyMon, none) :=
  onError_skip_noop ⟨emptyStrVals, some 0, none⟩ (toL "select 1") 7 emptyMon
    (some GoErr.errSkip) (Or.inl rfl)

/-- C8: OnError on a genuine error (present and not the skip sentinel), with the
execution context the Before hook establishes, bumps the total and the error
counter of the resolved label, records the latency observation, annotates the
span with the error flag and the error text and closes it, and returns the
original error value unchanged — never nil, never a substitute. -/
theorem onError_genuine (ctx : Ctx) (q : List Char) (now b : Nat) (mon : QMonitor)
    (e : GoErr) (s : Span) (he : e ≠ GoErr.errSkip)
    (hb : ctx.beginVal = some b) (hs : ctx.spanVal = some s) :
    ∃ mon2 sp,
      goOnError ctx (some e) q now mon = .ok (some e, mon2, some sp) ∧
      mon2.total (SanitizeQuery (collapseQ q), onErrSqlType ctx)
        = mon.total (SanitizeQuery (collapseQ q), onErrSqlType ctx) + 1 ∧
      mon2.errors (SanitizeQuery (collapseQ q), onErrSqlType ctx)
        = mon.errors (SanitizeQuery (collapseQ q), onErrSqlType ctx) + 1 ∧
      mon2.latency (SanitizeQuery (collapseQ q), onErrSqlType ctx)
        = (now - b) :: mon.latency (SanitizeQuery (collapseQ q), onErrSqlType ctx) ∧
      mon2.success = mon.success ∧
      sp.ended = true ∧
      ("error", AttrVal.ofBool true) ∈ sp.attrs ∧
      ("errorText", AttrVal.ofStr e.text) ∈ sp.attrs := by
  have hcond : ¬((some e : Option GoErr) = some GoErr.errSkip ∨ (some e : Option GoErr) = none) := by
    simp [he]
  have hrun : goOnError ctx (some e) q now mon =
      .ok (some e,
        StoreLatency
          (StoreErroneous (StoreTotal mon (collapseQ q) (onErrSqlType ctx))
            (collapseQ q) (onErrSqlType ctx))
          (collapseQ q) (now - b) (onErrSqlType ctx),
        some (endSpan (setAttrs s [("error", AttrVal.ofBool true),
          ("errorText", AttrVal.ofStr e.text)]))) := by
    unfold goOnError
    rw [if_neg hcond, hb, hs]
    rfl
  refine ⟨_, _, hrun, ?_, ?_, ?_, ?_, rfl, ?_, ?_⟩
  · simp [StoreLatency, StoreErroneous, StoreTotal, bumpN]
  · simp [StoreLatency, StoreErroneous, StoreTotal, bumpN]
  · simp [StoreLatency, StoreErroneous, StoreTotal, pushObs]
  · simp [StoreLatency, StoreErroneous, StoreTotal]
  · simp [endSpan, setAttrs]
  · simp [endSpan, setAttrs]

/-- C8 witness: a genuine error at concrete inputs. -/
theorem onError_genuine_witness :
    ∃ mon2 sp,
      goOnError ⟨emptyStrVals, some 2, some ⟨"SQL: SELECT", [], false⟩⟩
          (some (GoErr.mk "boom")) (toL "select 1") 7 emptyMon
        = .ok (some (GoErr.mk "boom"), mon2, some sp) ∧
      mon2.total (SanitizeQuery (collapseQ (toL "select 1")),
          onErrSqlType ⟨emptyStrVals, some 2, some ⟨"SQL: SELECT", [], false⟩⟩)
        = emptyMon.total (SanitizeQuery (collapseQ (toL "select 1")),
          onErrSqlType ⟨emptyStrVals, some 2, some ⟨"SQL: SELECT", [], false⟩⟩) + 1 ∧
      mon2.errors (SanitizeQuery (collapseQ (toL "select 1")),
          onErrSqlType ⟨emptyStrVals, some 2, some ⟨"SQL: SELECT", [], false⟩⟩)
        = emptyMon.errors (SanitizeQuery (collapseQ (toL "select 1")),
          onErrSqlType ⟨emptyStrVals, some 2, some ⟨"SQL: SELECT", [], false⟩⟩) + 1 ∧
      mon2.latency (SanitizeQuery (collapseQ (toL "select 1")),
          onErrSqlType ⟨emptyStrVals, some 2, some ⟨"SQL: SELECT", [], false⟩⟩)
        = (7 - 2) :: emptyMon.latency (SanitizeQuery (collapseQ (toL "select 1")),
          onErrSqlType ⟨emptyStrVals, some 2, some ⟨"SQL: SELECT", [], false⟩⟩) ∧
      mon2.success = emptyMon.success ∧
      sp.ended = true ∧
      ("error", AttrVal.ofBool true) ∈ sp.attrs ∧
      ("errorText", AttrVal.ofStr (GoErr.mk "boom").text) ∈ sp.attrs :=
  onError_genuine ⟨emptyStrVals, some 2, some ⟨"SQL: SELECT", [], false⟩⟩
    (toL "select 1") 7 2 emptyMon (GoErr.mk "boom") ⟨"SQL: SELECT", [], false⟩
    (by decide) rfl rfl

/-- C1: an execution whose Before hook ran (so the begin timestamp is present)
and that reaches exactly one terminal hook with a non-skip outcome bumps the
total counter of the label resolved there by exactly one, together with exactly
one of the success counter (on After) or the error counter (on OnError with a
genuine error) — never both, never neither — while every other label of those
counters is left unchanged. -/
theorem terminal_exactly_once
    (ctx : Ctx) (q : List Char) (e : GoErr) (now b : Nat) (mon : QMonitor)
    (hb : ctx.beginVal = some b) (he : e ≠ GoErr.errSkip) :
    (∃ mon1 sp,
      goAfter ctx q now mon = .ok (ctx, mon1, sp) ∧
      mon1.total (SanitizeQuery (afterQueryRewrite q), afterSqlType ctx)
        = mon.total (SanitizeQuery (afterQueryRewrite q), afterSqlType ctx) + 1 ∧
      mon1.success (SanitizeQuery (afterQueryRewrite q), afterSqlType ctx)
        = mon.success (SanitizeQuery (afterQueryRewrite q), afterSqlType ctx) + 1 ∧
      mon1.errors = mon.errors ∧
      (∀ L, L ≠ (SanitizeQuery (afterQueryRewrite q), afterSqlType ctx) →
        mon1.total L = mon.total L ∧ mon1.success L = mon.success L))
  ∧ (∃ mon2 sp,
      goOnError ctx (some e) q now mon = .ok (some e, mon2, sp) ∧
      mon2.total (SanitizeQuery (collapseQ q), onErrSqlType ctx)
        = mon.total (SanitizeQuery (collapseQ q), onErrSqlType ctx) + 1 ∧
      mon2.errors (SanitizeQuery (collapseQ q), onErrSqlType ctx)
        = mon.errors (SanitizeQuery (collapseQ q), onErrSqlType ctx) + 1 ∧
      mon2.success = mon.success ∧
      (∀ L, L ≠ (SanitizeQuery (collapseQ q), onErrSqlType ctx) →
        mon2.total L = mon.total L ∧ mon2.errors L = mon.errors L)) := by
  constructor
  · have hrun : goAfter ctx q now mon =
        .ok (ctx,
          StoreLatency
            (StoreSuccesful (StoreTotal mon (afterQueryRewrite q) (afterSqlType ctx))
              (afterQueryRewrite q) (afterSqlType ctx))
            (afterQueryRewrite q) (now - b) (afterSqlType ctx),
          ctx.spanVal.map fun s =>
            endSpan (setAttrs s [("query.time", AttrVal.ofDur (now - b))])) := by
      unfold goAfter
      rw [hb]
    refine ⟨_, _, hrun, ?_, ?_, ?_, ?_⟩
    · simp [StoreLatency, StoreSuccesful, StoreTotal, bumpN]
    · simp [StoreLatency, StoreSuccesful, StoreTotal, bumpN]
    · simp [StoreLatency, StoreSuccesful, StoreTotal]
    · intro L hL
      constructor <;>
        simp [StoreLatency, StoreSuccesful, StoreTotal, bumpN, hL]
  · have hcond : ¬((some e : Option GoErr) = some GoErr.errSkip ∨ (some e : Option GoErr) = none) := by
      simp [he]
    have hrun : goOnError ctx (some e) q now mon =
        .ok (some e,
          StoreLatency
            (StoreErroneous (StoreTotal mon (collapseQ q) (onErrSqlType ctx))
              (collapseQ q) (onErrSqlType ctx))
            (collapseQ q) (now - b) (onErrSqlType ctx),
          ctx.spanVal.map fun s =>
            endSpan (setAttrs s [("error", AttrVal.ofBool true),
              ("errorText", AttrVal.ofStr e.text)])) := by
      unfold goOnError
      rw [if_neg hcond, hb]
      rfl
    refine ⟨_, _, hrun, ?_, ?_, ?_, ?_⟩
    · simp [StoreLatency, StoreErroneous, StoreTotal, bumpN]
    · simp [StoreLatency, StoreErroneous, StoreTotal, bumpN]
    · simp [StoreLatency, StoreErroneous, StoreTotal]
    · intro L hL
      constructor <;>
        simp [StoreLatency, StoreErroneous, StoreTotal, bumpN, hL]

/-- C1 witness: the exactly-once accounting at concrete inputs. -/
theorem terminal_exactly_once_witness :
    (∃ mon1 sp,
      goAfter ⟨emptyStrVals, some 1, none⟩ (toL "update t set a = ?") 4 emptyMon
        = .ok (⟨emptyStrVals, some 1, none⟩, mon1, sp) ∧
      mon1.total (SanitizeQuery (afterQueryRewrite (toL "update t set a = ?")),
          afterSqlType ⟨emptyStrVals, some 1, none⟩)
        = emptyMon.total (SanitizeQuery (afterQueryRewrite (toL "update t set a = ?")),
          afterSqlType ⟨emptyStrVals, some 1, none⟩) + 1 ∧
      mon1.success (SanitizeQuery (afterQueryRewrite (toL "update t set a = ?")),
          afterSqlType ⟨emptyStrVals, some 1, none⟩)
        = emptyMon.success (SanitizeQuery (afterQueryRewrite (toL "update t set a = ?")),
          afterSqlType ⟨emptyStrVals, some 1, none⟩) + 1 ∧
      mon1.errors = emptyMon.errors ∧
      (∀ L, L ≠ (SanitizeQuery (afterQueryRewrite (toL "update t set a = ?")),
          afterSqlType ⟨emptyStrVals, some 1, none⟩) →
        mon1.total L = emptyMon.total L ∧ mon1.success L = emptyMon.success L))
  ∧ (∃ mon2 sp,
      goOnError ⟨emptyStrVals, some 1, none⟩ (some (GoErr.mk "dup key"))
          (toL "update t set a = ?") 4 emptyMon
        = .ok (some (GoErr.mk "dup key"), mon2, sp) ∧
      mon2.total (SanitizeQuery (collapseQ (toL "update t set a = ?")),
          onErrSqlType ⟨emptyStrVals, some 1, none⟩)
        = emptyMon.total (SanitizeQuery (collapseQ (toL "update t set a = ?")),
          onErrSqlType ⟨emptyStrVals, some 1, none⟩) + 1 ∧
      mon2.errors (SanitizeQuery (collapseQ (toL "update t set a = ?")),
          onErrSqlType ⟨emptyStrVals, some 1, none⟩)
        = emptyMon.errors (SanitizeQuery (collapseQ (toL "update t set a = ?")),
          onErrSqlType ⟨emptyStrVals, some 1, none⟩) + 1 ∧
      mon2.success = emptyMon.success ∧
      (∀ L, L ≠ (SanitizeQuery (collapseQ (toL "update t set a = ?")),
          onErrSqlType ⟨emptyStrVals, some 1, none⟩) →
        mon2.total L = emptyMon.total L ∧ mon2.errors L = emptyMon.errors L)) :=
  terminal_exactly_once ⟨emptyStrVals, some 1, none⟩ (toL "update t set a = ?")
    (GoErr.mk "dup key") 4 1 emptyMon rfl (by decide)

/-- C9 counterexample: a terminal hook invoked on a context that carries the
begin timestamp but lacks the span does NOT signal a runtime failure — both
terminal hooks complete normally, silently skipping the span work, refuting the
claim that neither missing datum is silently ignored. -/
theorem missing_span_ignored_cex :
    isOkE (goAfter ⟨emptyStrVals, some 0, none⟩ (toL "select 1") 3 emptyMon) = true
  ∧ isOkE (goOnError ⟨emptyStrVals, some 0, none⟩ (some (GoErr.mk "boom"))
      (toL "select 1") 3 emptyMon) = true := by
  constructor
  · rfl
  · unfold goOnError
    rw [if_neg (by simp)]
    rfl

/-- C9 amended: only the missing begin timestamp is signalled as a runtime
failure (the failed type assertion panics — in OnError only after total and
erroneous were already stored); a missing span is silently ignored: with the
timestamp present and the span absent both terminal hooks complete normally,
returning no span. -/
theorem missing_ctx_amended (ctx : Ctx) (q : List Char) (now : Nat) (mon : QMonitor)
    (e : GoErr) (he : e ≠ GoErr.errSkip) :
    (ctx.beginVal = none →
      isOkE (goAfter ctx q now mon) = false ∧
      isOkE (goOnError ctx (some e) q now mon) = false)
  ∧ (∀ b, ctx.beginVal = some b → ctx.spanVal = none →
      (∃ mon1, goAfter ctx q now mon = .ok (ctx, mon1, none)) ∧
      (∃ mon2, goOnError ctx (some e) q now mon = .ok (some e, mon2, none))) := by
  have hcond : ¬((some e : Option GoErr) = some GoErr.errSkip ∨ (some e : Option GoErr) = none) := by
    simp [he]
  constructor
  · intro hnone
    constructor
    · unfold goAfter
      rw [hnone]
      rfl
    · unfold goOnError
      rw [if_neg hcond, hnone]
      rfl
  · intro b hb hs
    constructor
    · refine ⟨StoreLatency
        (StoreSuccesful (StoreTotal mon (afterQueryRewrite q) (afterSqlType ctx))
          (afterQueryRewrite q) (afterSqlType ctx))
        (afterQueryRewrite q) (now - b) (afterSqlType ctx), ?_⟩
      unfold goAfter
      rw [hb, hs]
      rfl
    · refine ⟨StoreLatency
        (StoreErroneous (StoreTotal mon (collapseQ q) (onErrSqlType ctx))
          (collapseQ q) (onErrSqlType ctx))
        (collapseQ q) (now - b) (onErrSqlType ctx), ?_⟩
      unfold goOnError
      rw [if_neg hcond, hb, hs]
      rfl

/-- C9 amended witness: a context without a begin timestamp makes both terminal
hooks fail, and one with a timestamp but no span lets both complete. -/
theorem missing_ctx_amended_witness :
    (isOkE (goAfter ⟨emptyStrVals, none, none⟩ (toL "select 1") 3 emptyMon) = false ∧
     isOkE (goOnError ⟨emptyStrVals, none, none⟩ (some (GoErr.mk "boom"))
       (toL "select 1") 3 emptyMon) = false)
  ∧ ((∃ mon1, goAfter ⟨emptyStrVals, some 0, none⟩ (toL "select 1") 3 emptyMon
        = .ok (⟨emptyStrVals, some 0, none⟩, mon1, none)) ∧
     (∃ mon2, goOnError ⟨emptyStrVals, some 0, none⟩ (some (GoErr.mk "boom"))
        (toL "select 1") 3 emptyMon = .ok (some (GoErr.mk "boom"), mon2, none))) :=
  ⟨(missing_ctx_amended ⟨emptyStrVals, none, none⟩ (toL "select 1") 3 emptyMon
      (GoErr.mk "boom") (by decide)).1 rfl,
   (missing_ctx_amended ⟨emptyStrVals, some 0, none⟩ (toL "select 1") 3 emptyMon
      (GoErr.mk "boom") (by decide)).2 0 rfl rfl⟩

/-- C10: the metrics type label defaults to master at both terminal hooks:
Before writes no string-keyed context value, After reads the key "sqlType",
while OnError reads the key "master" (the value of its sqlType variable), so a
value stored under "sqlType" is invisible to OnError; with no caller-stored
value, a statement — select included — is accounted under type master and the
slave-typed labels stay untouched. -/
theorem type_label_master_default :
    (∀ h ctx q now, (goBefore h ctx q now).strVals = ctx.strVals)
  ∧ (∀ v : String,
      afterSqlType ⟨fun k => if k = SqlType then some v else none, none, none⟩ = v)
  ∧ (∀ v : String,
      onErrSqlType ⟨fun k => if k = SqlType then some v else none, none, none⟩ = SqlMaster)
  ∧ (∀ v : String,
      onErrSqlType ⟨fun k => if k = SqlMaster then some v else none, none, none⟩ = v)
  ∧ (∀ ctx q now mon b, ctx.strVals = emptyStrVals → ctx.beginVal = some b →
      ∃ mon1 sp, goAfter ctx q now mon = .ok (ctx, mon1, sp) ∧
        mon1.total (SanitizeQuery (afterQueryRewrite q), SqlMaster)
          = mon.total (SanitizeQuery (afterQueryRewrite q), SqlMaster) + 1 ∧
        (∀ lq, mon1.total (lq, SqlSlave) = mon.total (lq, SqlSlave)))
  ∧ (∀ ctx q now mon b e, e ≠ GoErr.errSkip → ctx.strVals = emptyStrVals →
      ctx.beginVal = some b →
      ∃ mon2 sp, goOnError ctx (some e) q now mon = .ok (some e, mon2, sp) ∧
        mon2.total (SanitizeQuery (collapseQ q), SqlMaster)
          = mon.total (SanitizeQuery (collapseQ q), SqlMaster) + 1 ∧
        (∀ lq, mon2.total (lq, SqlSlave) = mon.total (lq, SqlSlave))) := by
  refine ⟨fun h ctx q now => rfl, fun v => ?_, fun v => ?_, fun v => ?_, ?_, ?_⟩
  · simp [afterSqlType]
  · have hne : SqlMaster ≠ SqlType := by decide
    simp [onErrSqlType, hne]
  · simp [onErrSqlType]
  · intro ctx q now mon b hv hb
    have hmaster : afterSqlType ctx = SqlMaster := by
      simp [afterSqlType, hv, emptyStrVals]
    have hrun : goAfter ctx q now mon =
        .ok (ctx,
          StoreLatency
            (StoreSuccesful (StoreTotal mon (afterQueryRewrite q) (afterSqlType ctx))
              (afterQueryRewrite q) (afterSqlType ctx))
            (afterQueryRewrite q) (now - b) (afterSqlType ctx),
          ctx.spanVal.map fun s =>
            endSpan (setAttrs s [("query.time", AttrVal.ofDur (now - b))])) := by
      unfold goAfter
      rw [hb]
    rw [hmaster] at hrun
    refine ⟨_, _, hrun, ?_, ?_⟩
    · simp [StoreLatency, StoreSuccesful, StoreTotal, bumpN]
    · intro lq
      have hne : (lq, SqlSlave) ≠ (SanitizeQuery (afterQueryRewrite q), SqlMaster) := by
        simp [SqlSlave, SqlMaster]
      simp [StoreLatency, StoreSuccesful, StoreTotal, bumpN, hne]
  · intro ctx q now mon b e he hv hb
    have hcond : ¬((some e : Option GoErr) = some GoErr.errSkip ∨ (some e : Option GoErr) = none) := by
      simp [he]
    have hmaster : onErrSqlType ctx = SqlMaster := by
      simp [onErrSqlType, hv, emptyStrVals]
    have hrun : goOnError ctx (some e) q now mon =
        .ok (some e,
          StoreLatency
            (StoreErroneous (StoreTotal mon (collapseQ q) (onErrSqlType ctx))
              (collapseQ q) (onErrSqlType ctx))
            (collapseQ q) (now - b) (onErrSqlType ctx),
          ctx.spanVal.map fun s =>
            endSpan (setAttrs s [("error", AttrVal.ofBool true),
              ("errorText", AttrVal.ofStr e.text)])) := by
      unfold goOnError
      rw [if_neg hcond, hb]
      rfl
    rw [hmaster] at hrun
    refine ⟨_, _, hrun, ?_, ?_⟩
    · simp [StoreLatency, StoreErroneous, StoreTotal, bumpN]
    · intro lq
      have hne : (lq, SqlSlave) ≠ (SanitizeQuery (collapseQ q), SqlMaster) := by
        simp [SqlSlave, SqlMaster]
      simp [StoreLatency, StoreErroneous, StoreTotal, bumpN, hne]

/-- C10 witness: the default master accounting at concrete inputs, and the key
distinction between the two terminal hooks for a caller-stored value. -/
theorem type_label_master_default_witness :
    (goBefore ⟨⟨"h1", "d1", "u1"⟩, ⟨"h2", "d2", "u2"⟩⟩
        ⟨emptyStrVals, none, none⟩ (toL "select 1") 0).strVals = emptyStrVals
  ∧ afterSqlType ⟨fun k => if k = SqlType then some "slave" else none, none, none⟩ = "slave"
  ∧ onErrSqlType ⟨fun k => if k = SqlType then some "slave" else none, none, none⟩ = SqlMaster
  ∧ onErrSqlType ⟨fun k => if k = SqlMaster then some "slave" else none, none, none⟩ = "slave"
  ∧ (∃ mon1 sp,
      goAfter ⟨emptyStrVals, some 0, none⟩ (toL "select 1") 3 emptyMon
        = .ok (⟨emptyStrVals, some 0, none⟩, mon1, sp) ∧
      mon1.total (SanitizeQuery (afterQueryRewrite (toL "select 1")), SqlMaster)
        = emptyMon.total (SanitizeQuery (afterQueryRewrite (toL "select 1")), SqlMaster) + 1 ∧
      (∀ lq, mon1.total (lq, SqlSlave) = emptyMon.total (lq, SqlSlave))) :=
  ⟨type_label_master_default.1 _ _ _ _,
   type_label_master_default.2.1 "slave",
   type_label_master_default.2.2.1 "slave",
   type_label_master_default.2.2.2.1 "slave",
   type_label_master_default.2.2.2.2.1 ⟨emptyStrVals, some 0, none⟩
     (toL "select 1") 3 emptyMon 0 rfl rfl⟩

/-- A successful case-insensitive prefix test forces the lowered head character. -/
theorem lowerStarts_head {c : Char} {p q : List Char}
    (h : lowerStarts (c :: p) q = true) :
    ∃ d q', q = d :: q' ∧ Char.toLower d = c := by
  cases q with
  | nil => exact absurd h Bool.false_ne_true
  | cons d q' =>
    refine ⟨d, q', rfl, ?_⟩
    have h2 : ((c == Char.toLower d) && p.isPrefixOf (q'.map Char.toLower)) = true := h
    have h3 := (Bool.and_eq_true _ _).mp h2
    exact (beq_iff_eq.mp h3.1).symm

/-- Two case-insensitive keyword prefixes with distinct leading characters are
mutually exclusive. -/
theorem lowerStarts_excl {c1 c2 : Char} {p1 p2 q : List Char} (hne : c1 ≠ c2)
    (h1 : lowerStarts (c1 :: p1) q = true) : lowerStarts (c2 :: p2) q = false := by
  obtain ⟨d, q', rfl, hd⟩ := lowerStarts_head h1
  cases hval : lowerStarts (c2 :: p2) (d :: q') with
  | false => rfl
  | true =>
    obtain ⟨d2, q2, heq, hd2⟩ := lowerStarts_head hval
    cases heq
    exact absurd (hd.symm.trans hd2) hne

/-- C2: classification returns select, update, delete or create exactly when
the text begins, case-insensitively, with that keyword, checked in that fixed
order, and returns other for all remaining inputs; in particular a text
beginning with insert is classified other. -/
theorem classify_spec (q : List Char) :
    (classify q = QClass.select ↔ lowerStarts (toL "select") q = true)
  ∧ (classify q = QClass.update ↔ lowerStarts (toL "update") q = true)
  ∧ (classify q = QClass.delete ↔ lowerStarts (toL "delete") q = true)
  ∧ (classify q = QClass.create ↔ lowerStarts (toL "create") q = true)
  ∧ (classify q = QClass.other ↔
      (lowerStarts (toL "select") q = false ∧ lowerStarts (toL "update") q = false ∧
       lowerStarts (toL "delete") q = false ∧ lowerStarts (toL "create") q = false))
  ∧ (lowerStarts (toL "insert") q = true → classify q = QClass.other) := by
  by_cases h1 : lowerStarts (toL "select") q = true
  · have hu : lowerStarts (toL "update") q = false :=
      lowerStarts_excl (by decide : ('s' : Char) ≠ 'u') h1
    have hd : lowerStarts (toL "delete") q = false :=
      lowerStarts_excl (by decide : ('s' : Char) ≠ 'd') h1
    have hc : lowerStarts (toL "create") q = false :=
      lowerStarts_excl (by decide : ('s' : Char) ≠ 'c') h1
    have hi : lowerStarts (toL "insert") q = false :=
      lowerStarts_excl (by decide : ('s' : Char) ≠ 'i') h1
    have hcl : classify q = QClass.select := by simp [classify, h1]
    refine ⟨?_, ?_, ?_, ?_, ?_, ?_⟩ <;> simp [hcl, h1, hu, hd, hc, hi]
  · have h1f : lowerStarts (toL "select") q = false := by
      simpa using h1
    by_cases h2 : lowerStarts (toL "update") q = true
    · have hd : lowerStarts (toL "delete") q = false :=
        lowerStarts_excl (by decide : ('u' : Char) ≠ 'd') h2
      have hc : lowerStarts (toL "create") q = false :=
        lowerStarts_excl (by decide : ('u' : Char) ≠ 'c') h2
      have hi : lowerStarts (toL "insert") q = false :=
        lowerStarts_excl (by decide : ('u' : Char) ≠ 'i') h2
      have hcl : classify q = QClass.update := by simp [classify, h1f, h2]
      refine ⟨?_, ?_, ?_, ?_, ?_, ?_⟩ <;> simp [hcl, h1f, h2, hd, hc, hi]
    · have h2f : lowerStarts (toL "update") q = false := by
        simpa using h2
      by_cases h3 : lowerStarts (toL "delete") q = true
      · have hc : lowerStarts (toL "create") q = false :=
          lowerStarts_excl (by decide : ('d' : Char) ≠ 'c') h3
        have hi : lowerStarts (toL "insert") q = false :=
          lowerStarts_excl (by decide : ('d' : Char) ≠ 'i') h3
        have hcl : classify q = QClass.delete := by simp [classify, h1f, h2f, h3]
        refine ⟨?_, ?_, ?_, ?_, ?_, ?_⟩ <;> simp [hcl, h1f, h2f, h3, hc, hi]
      · have h3f : lowerStarts (toL "delete") q = false := by
          simpa using h3
        by_cases h4 : lowerStarts (toL "create") q = true
        · have hi : lowerStarts (toL "insert") q = false :=
            lowerStarts_excl (by decide : ('c' : Char) ≠ 'i') h4
          have hcl : classify q = QClass.create := by simp [classify, h1f, h2f, h3f, h4]
          refine ⟨?_, ?_, ?_, ?_, ?_, ?_⟩ <;> simp [hcl, h1f, h2f, h3f, h4, hi]
        · have h4f : lowerStarts (toL "create") q = false := by
            simpa using h4
          have hcl : classify q = QClass.other := by simp [classify, h1f, h2f, h3f, h4f]
          refine ⟨?_, ?_, ?_, ?_, ?_, ?_⟩ <;> simp [hcl, h1f, h2f, h3f, h4f]

/-- C2 witness: concrete classifications, including an INSERT text classified
other through the theorem itself. -/
theorem classify_spec_witness :
    classify (toL "INSERT INTO t VALUES (1)") = QClass.other
  ∧ classify (toL "sEleCt 1") = QClass.select := by
  constructor
  · exact (classify_spec (toL "INSERT INTO t VALUES (1)")).2.2.2.2.2 (by decide)
  · exact (classify_spec (toL "sEleCt 1")).1.mpr (by decide)

/-- C4 counterexample: on "SELECT * FROM t WHERE id IN (?,?,?)" the Before
normalization does NOT produce "SELECT * FROM t WHERE id IN ()": the regexp
(,\?)+ matches only the ",?,?" run after the first placeholder, so the first
question mark survives. -/
theorem before_select_norm_cex :
    ¬ (classify (toL "SELECT * FROM t WHERE id IN (?,?,?)") = QClass.select ∧
       beforeCleanQuery (toL "SELECT * FROM t WHERE id IN (?,?,?)") =
         toL "SELECT * FROM t WHERE id IN ()") := by decide

/-- C4 amended: the statement is classified select, and the placeholder-collapse
rule removes only the comma-led run ",?,?", leaving the first placeholder, so
the normalized text is "SELECT * FROM t WHERE id IN (?)". -/
theorem before_select_norm_amended :
    classify (toL "SELECT * FROM t WHERE id IN (?,?,?)") = QClass.select ∧
    beforeCleanQuery (toL "SELECT * FROM t WHERE id IN (?,?,?)") =
      toL "SELECT * FROM t WHERE id IN (?)" := by decide

/-- A failing lowered head character refutes the case-insensitive prefix test. -/
theorem lowerStarts_cons_false {c d : Char} {p q' : List Char}
    (hne : Char.toLower d ≠ c) : lowerStarts (c :: p) (d :: q') = false := by
  cases hval : lowerStarts (c :: p) (d :: q') with
  | false => rfl
  | true =>
    obtain ⟨d2, q2, heq, hd2⟩ := lowerStarts_head hval
    cases heq
    exact absurd hd2 hne

/-- The insert rewrite regexp cannot match at a character that does not lower to v. -/
theorem ciMatchAt_cons_false {c : Char} {l : List Char} (h : Char.toLower c ≠ 'v') :
    ciMatchAt (c :: l) = false := by
  have hpre : lowerStarts ('v' :: toL "alues (") (c :: l) = false :=
    lowerStarts_cons_false h
  have hpre2 : vpat.isPrefixOf ((c :: l).map Char.toLower) = false := hpre
  unfold ciMatchAt
  rw [hpre2]
  rfl

/-- The insert rewrite walks unchanged over a prefix containing no character
that lowers to v. -/
theorem insertRepl_append_notV (pre l : List Char)
    (h : ∀ c ∈ pre, Char.toLower c ≠ 'v') :
    insertRepl (pre ++ l) = pre ++ insertRepl l := by
  induction pre with
  | nil => rfl
  | cons c pr ih =>
    have hc : Char.toLower c ≠ 'v' := h c (List.mem_cons_self c pr)
    have hpr : ∀ x ∈ pr, Char.toLower x ≠ 'v' := fun x hx => h x (List.mem_cons_of_mem c hx)
    simp [List.cons_append, insertRepl, ciMatchAt_cons_false hc, ih hpr]

/-- The insert rewrite fires at a "VALUES (" clause whose remainder carries no
newline, and replaces everything from there to the end by the fixed block. -/
theorem insertRepl_values (tail : List Char) (h : '\n' ∉ tail) :
    insertRepl (toL "VALUES (" ++ tail) = vblock := by
  have hpre : vpat.isPrefixOf ((toL "VALUES (" ++ tail).map Char.toLower) = true := by
    rw [List.map_append, show (toL "VALUES (").map Char.toLower = vpat from by decide]
    exact List.isPrefixOf_iff_prefix.mpr (List.prefix_append _ _)
  have hdrop : (toL "VALUES (" ++ tail).drop 8 = tail := rfl
  have hm : ciMatchAt (toL "VALUES (" ++ tail) = true := by
    unfold ciMatchAt
    rw [hdrop, hpre]
    simp [h]
  have hshape : toL "VALUES (" ++ tail = 'V' :: (toL "ALUES (" ++ tail) := rfl
  rw [hshape] at hm ⊢
  simp [insertRepl, hm]

/-- Rendered value tuples contain no newline when their entries contain none. -/
theorem renderTuples_no_newline :
    ∀ ts : List (List Char), (∀ t ∈ ts, '\n' ∉ t) → '\n' ∉ renderTuples ts
  | [], _ => by simp [renderTuples]
  | [t], h => by
    have ht : '\n' ∉ t := h t (List.mem_cons_self t [])
    simp [renderTuples, ht]
  | t :: t2 :: rest, h => by
    have ht : '\n' ∉ t := h t (List.mem_cons_self t (t2 :: rest))
    have hrest : ∀ x ∈ t2 :: rest, '\n' ∉ x := fun x hx => h x (List.mem_cons_of_mem t hx)
    have ih := renderTuples_no_newline (t2 :: rest) hrest
    simp [renderTuples, ht, ih]

/-- C5: an insert statement of the form "INSERT INTO t VALUES" followed by any
positive number of (newline-free) value tuples is classified other, and the
Before normalization replaces everything from the VALUES ( clause to the end of
the text by the fixed block, yielding the constant output
"INSERT INTO t VALUES (? ?)" whose length 26 does not depend on the number of
tuples. -/
theorem insert_norm_bounded (ts : List (List Char)) (hne : ts ≠ [])
    (hclean : ∀ t ∈ ts, '\n' ∉ t) :
    classify (toL "INSERT INTO t VALUES " ++ renderTuples ts) = QClass.other
  ∧ beforeCleanQuery (toL "INSERT INTO t VALUES " ++ renderTuples ts) =
      toL "INSERT INTO t VALUES (? ?)"
  ∧ (beforeCleanQuery (toL "INSERT INTO t VALUES " ++ renderTuples ts)).length = 26 := by
  have hshape : toL "INSERT INTO t VALUES " ++ renderTuples ts
      = 'I' :: (toL "NSERT INTO t VALUES " ++ renderTuples ts) := rfl
  have hs : lowerStarts (toL "select") (toL "INSERT INTO t VALUES " ++ renderTuples ts) = false := by
    rw [hshape]
    exact lowerStarts_cons_false (by decide)
  have hu : lowerStarts (toL "update") (toL "INSERT INTO t VALUES " ++ renderTuples ts) = false := by
    rw [hshape]
    exact lowerStarts_cons_false (by decide)
  have hd : lowerStarts (toL "delete") (toL "INSERT INTO t VALUES " ++ renderTuples ts) = false := by
    rw [hshape]
    exact lowerStarts_cons_false (by decide)
  have hc : lowerStarts (toL "create") (toL "INSERT INTO t VALUES " ++ renderTuples ts) = false := by
    rw [hshape]
    exact lowerStarts_cons_false (by decide)
  have hcl : classify (toL "INSERT INTO t VALUES " ++ renderTuples ts) = QClass.other := by
    simp [classify, hs, hu, hd, hc]
  obtain ⟨t, ts', rfl⟩ : ∃ t ts', ts = t :: ts' := by
    cases ts with
    | nil => exact absurd rfl hne
    | cons a b => exact ⟨a, b, rfl⟩
  obtain ⟨body, hr, hbn⟩ : ∃ body, renderTuples (t :: ts') = '(' :: body ∧ '\n' ∉ body := by
    have hnn := renderTuples_no_newline (t :: ts') hclean
    cases ts' with
    | nil =>
      refine ⟨t ++ [')'], rfl, ?_⟩
      rw [show renderTuples [t] = '(' :: (t ++ [')']) from rfl] at hnn
      exact fun hm => hnn (List.mem_cons_of_mem _ hm)
    | cons t2 rest =>
      refine ⟨t ++ (')' :: ',' :: renderTuples (t2 :: rest)), rfl, ?_⟩
      rw [show renderTuples (t :: t2 :: rest)
          = '(' :: (t ++ (')' :: ',' :: renderTuples (t2 :: rest))) from rfl] at hnn
      exact fun hm => hnn (List.mem_cons_of_mem _ hm)
  have hre : toL "INSERT INTO t VALUES " ++ renderTuples (t :: ts')
      = toL "INSERT INTO t " ++ (toL "VALUES (" ++ body) := by
    rw [hr]
    exact rfl
  have hnorm : insertRepl (toL "INSERT INTO t VALUES " ++ renderTuples (t :: ts'))
      = toL "INSERT INTO t VALUES (? ?)" := by
    rw [hre, insertRepl_append_notV (toL "INSERT INTO t ") _ (by decide),
        insertRepl_values body hbn]
    exact rfl
  have hbc : beforeCleanQuery (toL "INSERT INTO t VALUES " ++ renderTuples (t :: ts'))
      = insertRepl (toL "INSERT INTO t VALUES " ++ renderTuples (t :: ts')) := by
    unfold beforeCleanQuery
    rw [hcl]
  refine ⟨hcl, ?_, ?_⟩
  · rw [hbc, hnorm]
  · rw [hbc, hnorm]
    rfl

/-- C5 witness: the two-tuple example of the spec, rendered exactly as
"INSERT INTO t VALUES (1,2),(3,4)". -/
theorem insert_norm_bounded_witness :
    toL "INSERT INTO t VALUES " ++ renderTuples [toL "1,2", toL "3,4"]
      = toL "INSERT INTO t VALUES (1,2),(3,4)"
  ∧ (classify (toL "INSERT INTO t VALUES " ++ renderTuples [toL "1,2", toL "3,4"])
        = QClass.other
    ∧ beforeCleanQuery (toL "INSERT INTO t VALUES " ++ renderTuples [toL "1,2", toL "3,4"]) =
        toL "INSERT INTO t VALUES (? ?)"
    ∧ (beforeCleanQuery (toL "INSERT INTO t VALUES " ++
        renderTuples [toL "1,2", toL "3,4"])).length = 26) :=
  ⟨by decide, insert_norm_bounded [toL "1,2", toL "3,4"] (by decide) (by decide)⟩

/-- A text with no ",?" occurrence is a fixed point of the collapse rule. -/
theorem collapseQ_of_not_hasCQ : ∀ l, hasCQ l = false → collapseQ l = l
  | [], _ => rfl
  | [c], _ => rfl
  | c1 :: c2 :: rest, h => by
    by_cases hand : c1 = ',' ∧ c2 = '?'
    · simp [hasCQ, hand] at h
    · have h2 : hasCQ (c2 :: rest) = false := by
        simpa [hasCQ, hand] using h
      simp [collapseQ, hand, collapseQ_of_not_hasCQ (c2 :: rest) h2]

/-- The collapse rule never lengthens the text. -/
theorem collapseQ_length_le : ∀ l : List Char, (collapseQ l).length ≤ l.length
  | [] => le_refl _
  | [c] => le_refl _
  | c1 :: c2 :: rest => by
    by_cases hand : c1 = ',' ∧ c2 = '?'
    · have ih := collapseQ_length_le rest
      simp [collapseQ, hand]
      omega
    · have ih := collapseQ_length_le (c2 :: rest)
      have hlen : (c2 :: rest).length = rest.length + 1 := rfl
      simp [collapseQ, hand]
      omega

/-- The collapse rule strictly shortens any text containing ",?". -/
theorem collapseQ_length_lt : ∀ l : List Char, hasCQ l = true → (collapseQ l).length < l.length
  | [], h => by simp [hasCQ] at h
  | [c], h => by simp [hasCQ] at h
  | c1 :: c2 :: rest, h => by
    by_cases hand : c1 = ',' ∧ c2 = '?'
    · have hle := collapseQ_length_le rest
      simp [collapseQ, hand]
      omega
    · have h2 : hasCQ (c2 :: rest) = true := by
        simpa [hasCQ, hand] using h
      have ih := collapseQ_length_lt (c2 :: rest) h2
      have hlen : (c2 :: rest).length = rest.length + 1 := rfl
      simp [collapseQ, hand]
      omega

/-- Unfolded form of the insert-rewrite match condition. -/
theorem ciMatchAt_iff (X : List Char) :
    ciMatchAt X = true ↔ (vpat <+: X.map Char.toLower ∧ '\n' ∉ X.drop 8) := by
  simp [ciMatchAt, List.isPrefixOf_iff_prefix]

/-- No proper suffix of the pattern "values (" is a prefix of the lowered
replacement block, so no match can straddle the start of a replacement. -/
theorem vpat_no_straddle (m : Nat) (h1 : 1 ≤ m) (h2 : m < 8) :
    vpat.drop m ≠ (vblock.map Char.toLower).take (8 - m) := by
  interval_cases m <;> decide

/-- Replacing a matched tail by the replacement block cannot create a match at
any position where none existed: the block itself matches, it is newline-free,
and it cannot take part in a straddling match. -/
theorem ciMatchAt_append_vblock (p : List Char) (c : Char) (rest : List Char)
    (hm : ciMatchAt (c :: rest) = true) (h : ciMatchAt (p ++ c :: rest) = false) :
    ciMatchAt (p ++ vblock) = false := by
  cases hval : ciMatchAt (p ++ vblock) with
  | false => rfl
  | true =>
    exfalso
    obtain ⟨hnpre, hnnl⟩ := (ciMatchAt_iff _).mp hval
    obtain ⟨hmpre, hmnl⟩ := (ciMatchAt_iff _).mp hm
    rcases Nat.lt_or_ge p.length 8 with hp | hp
    · rcases Nat.eq_zero_or_pos p.length with hz | hpos
      · obtain rfl : p = [] := List.length_eq_zero.mp hz
        rw [List.nil_append] at h
        rw [h] at hm
        exact Bool.false_ne_true hm
      · have hvl : vpat = (p.map Char.toLower) ++ (vblock.map Char.toLower).take (8 - p.length) := by
          have ht := List.prefix_iff_eq_take.mp hnpre
          rw [List.map_append, show vpat.length = 8 from rfl,
            List.take_append_eq_append_take,
            List.take_of_length_le (by simp; omega), List.length_map] at ht
          exact ht
        have hdropeq : vpat.drop p.length = (vblock.map Char.toLower).take (8 - p.length) := by
          conv_lhs => rw [hvl]
          rw [List.drop_append_of_le_length (List.length_map _ _).ge,
            List.drop_eq_nil_of_le (List.length_map _ _).le, List.nil_append]
        exact vpat_no_straddle p.length hpos hp hdropeq
    · have hple : (8 : Nat) ≤ (p.map Char.toLower).length := by simpa using hp
      have hpp : vpat <+: p.map Char.toLower := by
        have ht := List.prefix_iff_eq_take.mp hnpre
        rw [List.map_append, show vpat.length = 8 from rfl,
          List.take_append_of_le_length hple] at ht
        rw [List.prefix_iff_eq_take, show vpat.length = 8 from rfl]
        exact ht
      have hA : vpat <+: (p ++ c :: rest).map Char.toLower := by
        rw [List.map_append]
        exact hpp.trans (List.prefix_append _ _)
      have hB : '\n' ∉ (p ++ c :: rest).drop 8 := by
        rw [List.drop_append_of_le_length hp]
        intro hmem
        rcases List.mem_append.mp hmem with hmem1 | hmem2
        · exact hnnl (by
            rw [List.drop_append_of_le_length hp]
            exact List.mem_append.mpr (Or.inl hmem1))
        · have hsplit := List.take_append_drop 8 (c :: rest)
          rw [← hsplit] at hmem2
          rcases List.mem_append.mp hmem2 with htk | hdr
          · have hmm : '\n' ∈ ((c :: rest).map Char.toLower).take 8 := by
              rw [← List.map_take]
              have h3 := List.mem_map_of_mem Char.toLower htk
              simpa using h3
            have hteq : ((c :: rest).map Char.toLower).take 8 = vpat := by
              have ht := List.prefix_iff_eq_take.mp hmpre
              rw [show vpat.length = 8 from rfl] at ht
              exact ht.symm
            rw [hteq] at hmm
            exact absurd hmm (by decide)
          · exact hmnl hdr
      exact absurd ((ciMatchAt_iff _).mpr ⟨hA, hB⟩) (by simp [h])

/-- The insert rewrite introduces no new match position in any context. -/
theorem insertRepl_no_new_match : ∀ (l p : List Char),
    ciMatchAt (p ++ l) = false → ciMatchAt (p ++ insertRepl l) = false
  | [], _, h => h
  | c :: rest, p, h => by
    by_cases hm : ciMatchAt (c :: rest) = true
    · rw [show insertRepl (c :: rest) = vblock from by simp [insertRepl, hm]]
      exact ciMatchAt_append_vblock p c rest hm h
    · rw [show insertRepl (c :: rest) = c :: insertRepl rest from by simp [insertRepl, hm]]
      have h' : ciMatchAt ((p ++ [c]) ++ rest) = false := by
        simpa [List.append_assoc, List.singleton_append] using h
      have hrec := insertRepl_no_new_match rest (p ++ [c]) h'
      simpa [List.append_assoc, List.singleton_append] using hrec

/-- The insert rewrite is idempotent. -/
theorem insertRepl_idem : ∀ l, insertRepl (insertRepl l) = insertRepl l
  | [] => rfl
  | c :: rest => by
    by_cases hm : ciMatchAt (c :: rest) = true
    · rw [show insertRepl (c :: rest) = vblock from by simp [insertRepl, hm]]
      decide
    · have heq : insertRepl (c :: rest) = c :: insertRepl rest := by
        simp [insertRepl, hm]
      rw [heq]
      have hmf : ciMatchAt (c :: rest) = false := by simpa using hm
      have h0 : ciMatchAt ([] ++ (c :: rest)) = false := by
        simpa using hmf
      have hnew := insertRepl_no_new_match (c :: rest) [] h0
      rw [heq, List.nil_append] at hnew
      rw [show insertRepl (c :: insertRepl rest) = c :: insertRepl (insertRepl rest) from by
        simp [insertRepl, hnew]]
      rw [insertRepl_idem rest]

/-- C3 counterexample: the placeholder-collapse rule is not idempotent — on the
input ",,??" one application yields ",?", a second application removes it. -/
theorem collapseQ_not_idem_cex :
    collapseQ (collapseQ (toL ",,??")) ≠ collapseQ (toL ",,??") := by decide

/-- C3 amended: the insert VALUES-block rule is idempotent on every input; the
placeholder-collapse rule is idempotent exactly on the inputs whose output no
longer contains the two-character pattern ",?" (the output of ",,??" does, so
that input breaks idempotence). -/
theorem rewrite_rules_idem_amended :
    (∀ l, insertRepl (insertRepl l) = insertRepl l)
  ∧ (∀ l, collapseQ (collapseQ l) = collapseQ l ↔ hasCQ (collapseQ l) = false) := by
  refine ⟨insertRepl_idem, fun l => ⟨?_, ?_⟩⟩
  · intro hidem
    cases hval : hasCQ (collapseQ l) with
    | false => rfl
    | true =>
      have hlt := collapseQ_length_lt (collapseQ l) hval
      rw [hidem] at hlt
      exact absurd hlt (lt_irrefl _)
  · intro hno
    exact collapseQ_of_not_hasCQ (collapseQ l) hno

/-- C3 amended witness: idempotence observed at concrete inputs of both rules. -/
theorem rewrite_rules_idem_amended_witness :
    insertRepl (insertRepl (toL "INSERT INTO t VALUES (1,2)")) =
      insertRepl (toL "INSERT INTO t VALUES (1,2)")
  ∧ collapseQ (collapseQ (toL "a IN (?,?,?)")) = collapseQ (toL "a IN (?,?,?)") :=
  ⟨rewrite_rules_idem_amended.1 (toL "INSERT INTO t VALUES (1,2)"),
   (rewrite_rules_idem_amended.2 (toL "a IN (?,?,?)")).mpr (by decide)⟩

end Sqlm
